import Mathlib

/-!
Shallow embedding of the policy-wrapper generator (Go package `internal`,
files `plugin.go` and `utils.go` of mprahl/policy-wrapper-poc).

The Go code is translated definition by definition:
* Go slices of strings become `List String`; Go distinguishes a `nil`
  slice from an empty one (`== nil` checks in `applyDefaults`), so fields
  tested against `nil` are modelled as `Option (List String)`.
* Go `map[string]string` (cluster selectors) becomes an association list
  `List (String × String)`; the code only takes its length, iterates its
  keys (sorting them before use), and looks keys up.
* The filesystem and the YAML decoder (external collaborators per the
  spec) are an explicit `Env` record: `statOk` models `os.Stat`
  succeeding, `isDir`/`readDir` model directory expansion, and
  `readManifests` models `unmarshalManifestFile` (decoded documents or an
  error for unreadable/undecodable files).
* The output buffer receives whole YAML documents; the embedding models
  it as the list of structured documents appended, `yaml.Marshal` being
  the external encode step (it cannot fail on the values built here).
* Go map iteration order is unspecified; `Generate`'s iteration over the
  group map is parametrised by `iter`, a list of the group keys in the
  order the runtime happens to yield them.
-/

/-- Decoded YAML value, the model of Go's `interface{}` document trees. -/
inductive Yaml where
  | str (s : String)
  | bool (b : Bool)
  | int (n : Int)
  | null
  | arr (xs : List Yaml)
  | map (fields : List (String × Yaml))

/-- Field lookup in a YAML mapping (`nil` on non-mappings), as
`unstructured` nested access does. -/
def Yaml.lookup? (y : Yaml) (k : String) : Option Yaml :=
  match y with
  | .map fields => (fields.find? (fun kv => kv.1 == k)).map Prod.snd
  | _ => none

/-- Model of `unstructured.NestedString`: descend through nested mappings and
return the final string; `none` covers both "not found" and
"present but not a string" (the callers treat those alike). -/
def Yaml.nestedString? : Yaml → List String → Option String
  | .str s, [] => some s
  | _, [] => none
  | y, k :: ks =>
    match y.lookup? k with
    | some v => v.nestedString? ks
    | none => none

/-- The `kind` field of a document, defaulting to `""` exactly as the
`kind, _, _ := NestedString(manifest, "kind")` pattern does. -/
def yamlKind (y : Yaml) : String := (y.nestedString? ["kind"]).getD ""

-- Constants from the top of plugin.go.
def policyAPIVersion : String := "policy.open-cluster-management.io/v1"
def policyKind : String := "Policy"
def configPolicyKind : String := "ConfigurationPolicy"
def placementRuleAPIVersion : String := "apps.open-cluster-management.io/v1"
def placementRuleKind : String := "PlacementRule"
def placementBindingAPIVersion : String := "policy.open-cluster-management.io/v1"
def placementBindingKind : String := "PlacementBinding"

/-- Go struct `manifest`. -/
structure Manifest where
  path : String
deriving DecidableEq, Repr

/-- Go struct `namespaceSelector`; `Option` distinguishes a nil slice
from an explicitly empty one (`== nil` checks in `applyDefaults`). -/
structure NamespaceSelector where
  exclude : Option (List String)
  include_ : Option (List String)
deriving DecidableEq, Repr

/-- The anonymous `Placement` struct shared by `policyConfig` and
`PolicyDefaults`. -/
structure Placement where
  clusterSelectors : List (String × String)
  placementRulePath : String
deriving DecidableEq, Repr

/-- Go struct `policyConfig`. -/
structure PolicyConfig where
  categories : Option (List String)
  complianceType : String
  controls : Option (List String)
  disabled : Bool
  manifests : List Manifest
  name : String
  namespaceSelector : NamespaceSelector
  placement : Placement
  remediationAction : String
  severity : String
  standards : Option (List String)
deriving DecidableEq, Repr

/-- The anonymous `PolicyDefaults` struct inside `Plugin`. -/
structure PolicyDefaults where
  categories : Option (List String)
  complianceType : String
  controls : Option (List String)
  namespace_ : String
  namespaceSelector : NamespaceSelector
  placement : Placement
  remediationAction : String
  severity : String
  standards : Option (List String)
deriving DecidableEq, Repr

/-- Go struct `Plugin` (the config model; `outputBuffer` is carried
separately as the documents each operation emits). -/
structure Plugin where
  metadataName : String
  placementBindingDefaultsName : String
  policyDefaults : PolicyDefaults
  policies : List PolicyConfig
deriving DecidableEq, Repr

/-- The zero value of `policyConfig` (Go zero-initialised struct). -/
def zeroPolicyConfig : PolicyConfig :=
  { categories := none, complianceType := "", controls := none, disabled := false,
    manifests := [], name := "",
    namespaceSelector := { exclude := none, include_ := none },
    placement := { clusterSelectors := [], placementRulePath := "" },
    remediationAction := "", severity := "", standards := none }

/-- One entry of a directory listing (`ioutil.ReadDir` result). -/
structure DirEntry where
  name : String
  isDir : Bool
deriving DecidableEq, Repr

/-- The external collaborators: filesystem stat/list/read plus the YAML
decoder (`unmarshalManifestFile` is `readManifests`). -/
structure Env where
  statOk : String → Bool
  isDir : String → Bool
  readDir : String → Option (List DirEntry)
  readManifests : String → Except String (List Yaml)

/-- The global-default block of `applyDefaults` (plugin.go lines
filling `p.PolicyDefaults`): every unset (`nil`/empty) field receives
its fixed default; set fields are kept. -/
def defaultedDefaults (d0 : PolicyDefaults) : PolicyDefaults :=
  { d0 with
    categories := some (d0.categories.getD ["CM Configuration Management"]),
    complianceType := if d0.complianceType = "" then "musthave" else d0.complianceType,
    controls := some (d0.controls.getD ["CM-2 Baseline Configuration"]),
    remediationAction :=
      if d0.remediationAction = "" then "inform" else d0.remediationAction,
    severity := if d0.severity = "" then "low" else d0.severity,
    standards := some (d0.standards.getD ["NIST SP 800-53"]) }

/-- The per-policy body of `applyDefaults`'s loop, given the
already-defaulted globals `d`. -/
def defaultedPolicy (d : PolicyDefaults) (pc : PolicyConfig) : PolicyConfig :=
  { pc with
    categories := match pc.categories with | none => d.categories | some v => some v,
    complianceType :=
      if pc.complianceType = "" then d.complianceType else pc.complianceType,
    controls := match pc.controls with | none => d.controls | some v => some v,
    placement :=
      if pc.placement.clusterSelectors.length = 0 ∧ pc.placement.placementRulePath = "" then
        if d.placement.placementRulePath ≠ "" then
          { pc.placement with placementRulePath := d.placement.placementRulePath }
        else if d.placement.clusterSelectors.length > 0 then
          { pc.placement with clusterSelectors := d.placement.clusterSelectors }
        else pc.placement
      else pc.placement,
    namespaceSelector :=
      if pc.namespaceSelector.exclude = none ∧ pc.namespaceSelector.include_ = none then
        d.namespaceSelector
      else pc.namespaceSelector,
    remediationAction :=
      if pc.remediationAction = "" then d.remediationAction else pc.remediationAction,
    severity := if pc.severity = "" then d.severity else pc.severity,
    standards := match pc.standards with | none => d.standards | some v => some v }

/-- Function `applyDefaults` from plugin.go: early return on an empty policy
list, binding-name derivation for a single policy, then the global and
per-policy default cascades. -/
def applyDefaults (p : Plugin) : Plugin :=
  match p.policies with
  | [] => p
  | pc0 :: _ =>
    let bindingName :=
      if p.placementBindingDefaultsName = "" ∧ p.policies.length = 1 then
        "binding-" ++ pc0.name
      else p.placementBindingDefaultsName
    let d := defaultedDefaults p.policyDefaults
    { p with
      placementBindingDefaultsName := bindingName,
      policyDefaults := d,
      policies := p.policies.map (defaultedPolicy d) }

/-- The per-manifest-entry checks inside `assertValidConfig`'s inner
loop: first empty path, then `os.Stat` reachability, first failure wins. -/
def manifestError (env : Env) : List Manifest → Option String
  | [] => none
  | m :: rest =>
    if m.path = "" then some "each policy manifest entry must have path set"
    else if ¬ env.statOk m.path then some ("could not read the manifest path " ++ m.path)
    else manifestError env rest

/-- The body of `assertValidConfig`'s per-policy loop, in source order;
`seen` is the set of names of previously validated policies. -/
def validatePolicy (env : Env) (seen : List String) (pc : PolicyConfig) : Option String :=
  if pc.placement.clusterSelectors.length ≠ 0 ∧ pc.placement.placementRulePath ≠ "" then
    some "a policy may not specify placement.clusterSelectors and placement.placementRulePath together"
  else if pc.manifests.length = 0 then
    some "each policy must have at least one manifest"
  else
    match manifestError env pc.manifests with
    | some e => some e
    | none =>
      if pc.name = "" then some "each policy must have a name set"
      else if seen.contains pc.name then
        some ("each policy must have a unique name set: " ++ pc.name)
      else if pc.placement.placementRulePath ≠ "" ∧
          ¬ env.statOk pc.placement.placementRulePath then
        some ("could not read the placement rule path " ++ pc.placement.placementRulePath)
      else none

/-- The per-policy loop of `assertValidConfig`. -/
def assertValidPolicies (env : Env) : List PolicyConfig → List String → Except String Unit
  | [], _ => .ok ()
  | pc :: rest, seen =>
    match validatePolicy env seen pc with
    | some e => .error e
    | none => assertValidPolicies env rest (pc.name :: seen)

/-- Function `assertValidConfig` from plugin.go (run only after `applyDefaults`). -/
def assertValidConfig (env : Env) (p : Plugin) : Except String Unit :=
  if p.placementBindingDefaultsName = "" ∧ p.policies.length > 1 then
    .error "placementBindingDefaults.name must be set when there are mutiple policies"
  else if p.policyDefaults.namespace_ = "" then
    .error "policyDefaults.namespace is empty but it must be set"
  else if p.policies.length = 0 then
    .error "policies is empty but it must be set"
  else assertValidPolicies env p.policies []

/-! Output documents.  The Go code builds each document as a map literal
and marshals it; the embedding keeps the structured value.  Documents
constructed by the generator get a record per shape; an externally
loaded placement rule is re-emitted verbatim, so it stays raw `Yaml`. -/

/-- The content of `objectDefinition` in the policy template built by
`getPolicyTemplate` (utils.go): fixed apiVersion/kind, the policy name,
and the spec fields; `objectTemplates` is the `object-templates` list. -/
structure PolicyTemplateDoc where
  apiVersion : String
  kind : String
  name : String
  remediationAction : String
  severity : String
  objectTemplates : List Yaml

/-- The Policy document built by `createPolicy`; the three annotation
fields are the comma-joined metadata annotations. -/
structure PolicyDoc where
  apiVersion : String
  kind : String
  annotationCategories : String
  annotationControls : String
  annotationStandards : String
  name : String
  namespace_ : String
  disabled : Bool
  policyTemplates : List PolicyTemplateDoc
  remediationAction : String

/-- One `matchExpressions` entry of a synthesized placement rule. -/
structure MatchExpression where
  key : String
  operator : String
  values : List String
deriving DecidableEq, Repr

/-- The PlacementRule document synthesized by `createPlacementRule`
(the `clusterConditions` boilerplate is fixed and carried implicitly). -/
structure PlacementRuleDoc where
  apiVersion : String
  kind : String
  name : String
  namespace_ : String
  matchExpressions : List MatchExpression
deriving DecidableEq, Repr

/-- One `subjects` entry of a placement binding. -/
structure SubjectDoc where
  apiGroup : String
  kind : String
  name : String
deriving DecidableEq, Repr

/-- The `placementRef` of a placement binding. -/
structure PlacementRefDoc where
  apiGroup : String
  name : String
  kind : String
deriving DecidableEq, Repr

/-- The PlacementBinding document built by `createPlacementBinding`. -/
structure PlacementBindingDoc where
  apiVersion : String
  kind : String
  name : String
  namespace_ : String
  placementRef : PlacementRefDoc
  subjects : List SubjectDoc
deriving DecidableEq, Repr

/-- One document appended to the output buffer. -/
inductive OutDoc where
  | policy (d : PolicyDoc)
  | placementRuleRaw (y : Yaml)
  | placementRule (d : PlacementRuleDoc)
  | placementBinding (d : PlacementBindingDoc)

/-- Projection to a binding document, for counting emitted bindings. -/
def bindingDocOf : OutDoc → Option PlacementBindingDoc
  | .placementBinding d => some d
  | _ => none

/-- The name of an emitted placement document: `metadata.name` of a
re-emitted external rule, the `name` field of a synthesized one. -/
def placementDocName : OutDoc → Option String
  | .placementRuleRaw y => y.nestedString? ["metadata", "name"]
  | .placementRule d => some d.name
  | _ => none

/-- Directory expansion in `getPolicyTemplate` (utils.go): a file path
stands alone; a directory contributes its non-directory entries whose
extension is `.yaml`/`.yml` (`path.Ext` equals `".yaml"` exactly when the
name ends in `".yaml"`, since the extension itself contains no dot), each
joined to the directory path. -/
def expandManifestPaths (env : Env) (m : Manifest) : Except String (List String) :=
  let readErr := "failed to read the manifest directory " ++ m.path
  if ¬ env.statOk m.path then .error readErr
  else if env.isDir m.path then
    match env.readDir m.path with
    | none => .error readErr
    | some entries =>
      .ok (entries.filterMap (fun f =>
        if f.isDir then none
        else if f.name.endsWith ".yaml" ∨ f.name.endsWith ".yml" then
          some (m.path ++ "/" ++ f.name)
        else none))
  else .ok [m.path]

/-- Load one expanded manifest path list, skipping files that decode to
zero documents and concatenating the rest (the bare documents are the
accumulated `object-templates` entries). -/
def loadManifestPaths (env : Env) : List String → Except String (List Yaml)
  | [] => .ok []
  | mp :: rest =>
    match env.readManifests mp with
    | .error e => .error e
    | .ok docs =>
      match loadManifestPaths env rest with
      | .error e => .error e
      | .ok more => .ok (docs ++ more)

/-- The accumulation loop over a policy's manifest entries. -/
def collectManifests (env : Env) : List Manifest → Except String (List Yaml)
  | [] => .ok []
  | m :: rest =>
    match expandManifestPaths env m with
    | .error e => .error e
    | .ok paths =>
      match loadManifestPaths env paths with
      | .error e => .error e
      | .ok docs =>
        match collectManifests env rest with
        | .error e => .error e
        | .ok more => .ok (docs ++ more)

/-- Function `getPolicyTemplate` from utils.go: gather every decoded document of
every manifest entry, fail when none, and wrap them in the
`objectDefinition` template. -/
def getPolicyTemplate (env : Env) (pc : PolicyConfig) : Except String PolicyTemplateDoc :=
  match collectManifests env pc.manifests with
  | .error e => .error e
  | .ok manifests =>
    if manifests.length = 0 then
      .error ("the policy " ++ pc.name ++ " must specify at least one non-empty manifest file")
    else
      .ok { apiVersion := policyAPIVersion, kind := configPolicyKind, name := pc.name,
            remediationAction := pc.remediationAction, severity := pc.severity,
            objectTemplates := manifests }

/-- Function `createPolicy` from plugin.go; the emitted document rather than the
marshalled bytes is returned. -/
def createPolicy (env : Env) (p : Plugin) (pc : PolicyConfig) : Except String OutDoc :=
  match getPolicyTemplate env pc with
  | .error e => .error e
  | .ok tpl =>
    .ok (.policy
      { apiVersion := policyAPIVersion, kind := policyKind,
        annotationCategories := String.intercalate "," (pc.categories.getD []),
        annotationControls := String.intercalate "," (pc.controls.getD []),
        annotationStandards := String.intercalate "," (pc.standards.getD []),
        name := pc.name, namespace_ := p.policyDefaults.namespace_,
        disabled := pc.disabled, policyTemplates := [tpl],
        remediationAction := pc.remediationAction })

/-- The first loop of `Generate`: one policy document per policy, in
declaration order, stopping at the first error. -/
def createPolicies (env : Env) (p : Plugin) : List PolicyConfig → Except String (List OutDoc)
  | [] => .ok []
  | pc :: rest =>
    match createPolicy env p pc with
    | .error e => .error e
    | .ok d =>
      match createPolicies env p rest with
      | .error e => .error e
      | .ok ds => .ok (d :: ds)

/-- Selector lookup (`policyConf.Placement.ClusterSelectors[label]`). -/
def lookupSel (sel : List (String × String)) (k : String) : String :=
  ((sel.find? (fun kv => kv.1 == k)).map Prod.snd).getD ""

/-- Function `createPlacementRule` from plugin.go.  Returns the resolved name and
the documents appended (one or none).  External path: scan the file's
documents for the first of kind `PlacementRule`, extract and check
name/namespace, skip re-emission when the name is in `skip`.  Otherwise:
synthesize a rule from the selectors, match-expression keys sorted. -/
def createPlacementRule (env : Env) (ns : String) (pc : PolicyConfig) (skip : List String) :
    Except String (String × List OutDoc) :=
  let plrPath := pc.placement.placementRulePath
  if plrPath ≠ "" then
    match env.readManifests plrPath with
    | .error e => .error e
    | .ok ms =>
      match ms.find? (fun m => yamlKind m == placementRuleKind) with
      | some m =>
        match m.nestedString? ["metadata", "name"] with
        | none => .error ("the placement " ++ plrPath ++ " must have a name set")
        | some nm =>
          match m.nestedString? ["metadata", "namespace"] with
          | none => .error ("the placement " ++ plrPath ++ " must have a namespace set")
          | some nsp =>
            if nsp ≠ ns then
              .error ("the placement " ++ plrPath ++
                " must have the same namespace as the policy (" ++ ns ++ ")")
            else if skip.contains nm then .ok (nm, [])
            else if nm = "" then
              .error ("the placement manifest " ++ plrPath ++ " did not have a placement rule")
            else .ok (nm, [.placementRuleRaw m])
      | none =>
        -- no PlacementRule document: the named return `name` stays "".
        if skip.contains "" then .ok ("", [])
        else .error ("the placement manifest " ++ plrPath ++ " did not have a placement rule")
  else
    let keys := List.insertionSort (· ≤ ·) (pc.placement.clusterSelectors.map Prod.fst)
    let matchExpressions := keys.map (fun label =>
      { key := label, operator := "In",
        values := [lookupSel pc.placement.clusterSelectors label] : MatchExpression })
    let name := "placement-" ++ pc.name
    .ok (name,
      [.placementRule { apiVersion := placementRuleAPIVersion, kind := placementRuleKind,
                        name := name, namespace_ := ns,
                        matchExpressions := matchExpressions }])

/-- The second loop of `Generate`: resolve every policy's placement,
threading the `seen` set, returning the emitted documents and the
per-policy resolved names. -/
def resolvePlacements (env : Env) (ns : String) :
    List PolicyConfig → List String → Except String (List OutDoc × List String)
  | [], _ => .ok ([], [])
  | pc :: rest, seen =>
    match createPlacementRule env ns pc seen with
    | .error e => .error e
    | .ok (nm, ds) =>
      match resolvePlacements env ns rest (nm :: seen) with
      | .error e => .error e
      | .ok (ds', nms) => .ok (ds ++ ds', nm :: nms)

/-- Append one index under its placement name, first-seen key order
(`plrNameToPolicyIdxs[plrName] = append(..., i)`). -/
def addToGroup : List (String × List Nat) → String → Nat → List (String × List Nat)
  | [], nm, i => [(nm, [i])]
  | (k, is) :: rest, nm, i =>
    if k = nm then (k, is ++ [i]) :: rest else (k, is) :: addToGroup rest nm i

/-- Build `plrNameToPolicyIdxs`: policy indices grouped by resolved
placement name, keys in first-seen order, each index list in declaration
order. -/
def groupByNameAux : List (String × List Nat) → Nat → List String → List (String × List Nat)
  | acc, _, [] => acc
  | acc, i, nm :: rest => groupByNameAux (addToGroup acc nm i) (i + 1) rest

/-- Grouping of the resolved placement names (the Go map, represented in
insertion order; iteration order is supplied separately). -/
def groupByName (names : List String) : List (String × List Nat) :=
  groupByNameAux [] 0 names

/-- Lookup of a group's index list by placement name. -/
def lookupGroup (groups : List (String × List Nat)) (nm : String) : List Nat :=
  ((groups.find? (fun g => g.1 == nm)).map Prod.snd).getD []

/-- Function `createPlacementBinding` from plugin.go (marshalling never fails on
these values, so the document is returned directly). -/
def createPlacementBinding (p : Plugin) (bindingName plrName : String)
    (policyConfs : List PolicyConfig) : OutDoc :=
  .placementBinding
    { apiVersion := placementBindingAPIVersion, kind := placementBindingKind,
      name := bindingName, namespace_ := p.policyDefaults.namespace_,
      placementRef := { apiGroup := placementRuleAPIVersion, name := plrName,
                        kind := placementRuleKind },
      subjects := policyConfs.map (fun pc =>
        { apiGroup := policyAPIVersion, kind := policyKind, name := pc.name }) }

/-- The binding loop of `Generate` over the group map, in the iteration
order `iter`; `count` is `plcBindingCount` before the increment.  Note
the source reads `p.Policies[i]` for `i := range policyIdxs`, i.e. it
indexes the policy list by the loop counter, not by `policyIdxs[i]`. -/
def createBindings (p : Plugin) (groups : List (String × List Nat)) :
    List String → Nat → List OutDoc
  | [], _ => []
  | plrName :: rest, count =>
    let policyIdxs := lookupGroup groups plrName
    let policyConfs := (List.range policyIdxs.length).map
      (fun i => p.policies.getD i zeroPolicyConfig)
    let cnt := count + 1
    let bindingName :=
      if cnt = 1 then p.placementBindingDefaultsName
      else p.placementBindingDefaultsName ++ toString cnt
    createPlacementBinding p bindingName plrName policyConfs ::
      createBindings p groups rest cnt

/-- Function `Generate` from plugin.go, parametrised by `iter`, the order in which
the runtime happens to iterate the keys of `plrNameToPolicyIdxs`. -/
def Generate (env : Env) (iter : List String) (p : Plugin) : Except String (List OutDoc) :=
  match createPolicies env p p.policies with
  | .error e => .error e
  | .ok polDocs =>
    match resolvePlacements env p.policyDefaults.namespace_ p.policies [] with
    | .error e => .error e
    | .ok (plrDocs, names) =>
      let groups := groupByName names
      let bindingDocs := createBindings p groups iter 0
      .ok (polDocs ++ plrDocs ++ bindingDocs)

/-! Concrete fixtures used by the counterexample theorems and the
witnesses: a tiny filesystem with one placement-rule manifest and one
ConfigMap manifest, and a handful of small configurations. -/

/-- The decoded content of `plr.yaml`: one PlacementRule named `my-plr`
in namespace `ns`. -/
def plrManifest : Yaml :=
  .map [("apiVersion", .str "apps.open-cluster-management.io/v1"),
        ("kind", .str "PlacementRule"),
        ("metadata", .map [("name", .str "my-plr"), ("namespace", .str "ns")])]

/-- The decoded content of `m.yaml`: one ConfigMap document. -/
def cmManifest : Yaml :=
  .map [("apiVersion", .str "v1"), ("kind", .str "ConfigMap"),
        ("metadata", .map [("name", .str "my-configmap")]),
        ("data", .map [("game.properties", .str "enemies=potato")])]

/-- A filesystem with exactly the two files above, everything stat-able
and nothing a directory. -/
def envFix : Env :=
  { statOk := fun _ => true, isDir := fun _ => false, readDir := fun _ => none,
    readManifests := fun path =>
      if path = "plr.yaml" then .ok [plrManifest]
      else if path = "m.yaml" then .ok [cmManifest]
      else .error ("failed to read the manifest file " ++ path) }

/-- Policy defaults with only the namespace set. -/
def nsDefaults : PolicyDefaults :=
  { categories := none, complianceType := "", controls := none,
    namespace_ := "ns", namespaceSelector := { exclude := none, include_ := none },
    placement := { clusterSelectors := [], placementRulePath := "" },
    remediationAction := "", severity := "", standards := none }

/-- Policy `policy-a`: one manifest, external placement `plr.yaml`. -/
def polA : PolicyConfig :=
  { zeroPolicyConfig with
    name := "policy-a", manifests := [{ path := "m.yaml" }],
    placement := { clusterSelectors := [], placementRulePath := "plr.yaml" } }

/-- Policy `policy-b`: one manifest, synthesized placement. -/
def polB : PolicyConfig :=
  { zeroPolicyConfig with
    name := "policy-b", manifests := [{ path := "m.yaml" }] }

/-- Policy `policy-c`: same external placement file as `policy-a`. -/
def polC : PolicyConfig :=
  { zeroPolicyConfig with
    name := "policy-c", manifests := [{ path := "m.yaml" }],
    placement := { clusterSelectors := [], placementRulePath := "plr.yaml" } }

/-- Policy `policy-d`: one manifest, synthesized placement. -/
def polD : PolicyConfig :=
  { zeroPolicyConfig with
    name := "policy-d", manifests := [{ path := "m.yaml" }] }

/-- The three-policy configuration on which the binding-subjects slip in
`Generate` shows: `policy-a` and `policy-c` share placement `my-plr`,
`policy-b` synthesizes its own. -/
def pABC : Plugin :=
  { metadataName := "", placementBindingDefaultsName := "binding",
    policyDefaults := nsDefaults,
    policies := [polA, polB, polC] }

/-- A single policy with every defaultable field unset. -/
def pSingle : Plugin :=
  { metadataName := "", placementBindingDefaultsName := "",
    policyDefaults := nsDefaults,
    policies := [{ zeroPolicyConfig with name := "p", manifests := [{ path := "m.yaml" }] }] }

/-- A policy named `policy-x` with one readable manifest. -/
def polX : PolicyConfig :=
  { zeroPolicyConfig with name := "policy-x", manifests := [{ path := "m.yaml" }] }

/-- Two policies with the identical name `policy-x`. -/
def pDup : Plugin :=
  { metadataName := "", placementBindingDefaultsName := "binding",
    policyDefaults := nsDefaults,
    policies := [polX, polX] }

/-- Two identically named policies with the defaults namespace left
empty. -/
def pDupNoNs : Plugin :=
  { metadataName := "", placementBindingDefaultsName := "binding",
    policyDefaults := { nsDefaults with namespace_ := "" },
    policies := [polX, polX] }

/-- A policy that sets both cluster selectors and a placement rule path. -/
def polBoth : PolicyConfig :=
  { zeroPolicyConfig with
    name := "policy-e", manifests := [{ path := "m.yaml" }],
    placement := { clusterSelectors := [("cloud", "red hat")],
                   placementRulePath := "plr.yaml" } }

/-- A configuration containing the doubly-placed policy. -/
def pBoth : Plugin :=
  { metadataName := "", placementBindingDefaultsName := "binding",
    policyDefaults := nsDefaults,
    policies := [polB, polBoth] }

/-- A policy whose cluster selectors are given zebra-first. -/
def polSel : PolicyConfig :=
  { zeroPolicyConfig with
    name := "policy-sel",
    placement := { clusterSelectors := [("zebra", "x"), ("apple", "y")],
                   placementRulePath := "" } }

/-- Two policies with distinct synthesized placements. -/
def pBD : Plugin :=
  { metadataName := "", placementBindingDefaultsName := "binding",
    policyDefaults := nsDefaults,
    policies := [polB, polD] }

/-- A configuration with an empty policy list. -/
def pEmpty : Plugin :=
  { metadataName := "meta", placementBindingDefaultsName := "",
    policyDefaults := nsDefaults,
    policies := [] }

/-- The placement documents `pBD` resolves to (two synthesized rules
with no match expressions). -/
def rdocsBD : List OutDoc :=
  [.placementRule { apiVersion := placementRuleAPIVersion, kind := placementRuleKind,
                    name := "placement-policy-b", namespace_ := "ns",
                    matchExpressions := [] },
   .placementRule { apiVersion := placementRuleAPIVersion, kind := placementRuleKind,
                    name := "placement-policy-d", namespace_ := "ns",
                    matchExpressions := [] }]

/-- The full generated output for `pBD` under the natural iteration
order. -/
def docsBD : List OutDoc :=
  (Generate envFix ["placement-policy-b", "placement-policy-d"] pBD).toOption.getD []

/-! Theorems. -/

/-- Lemma: `applyDefaults` preserves the number (and positions) of policies. -/
theorem applyDefaults_policies (p : Plugin) (h : p.policies ≠ []) :
    (applyDefaults p).policies =
      p.policies.map (defaultedPolicy (defaultedDefaults p.policyDefaults)) := by
  cases hl : p.policies with
  | nil => exact absurd hl h
  | cons pc0 rest => simp [applyDefaults, hl]

/-- C10: with an empty policies list, `applyDefaults` is the identity:
no global default is filled in and the binding default name is kept. -/
theorem claim_C10_applyDefaults_empty_identity (p : Plugin) (h : p.policies = []) :
    applyDefaults p = p := by
  unfold applyDefaults
  rw [h]

/-- Witness for C10 at a concrete empty-policies configuration. -/
theorem claim_C10_witness : applyDefaults pEmpty = pEmpty :=
  claim_C10_applyDefaults_empty_identity pEmpty rfl

/-- C3: when neither the global defaults nor the policy set categories,
controls, complianceType, remediationAction, severity or standards,
`applyDefaults` resolves them on the policy to the documented fixed
defaults. -/
theorem claim_C3_fixed_defaults (p : Plugin) (i : Nat) (h : i < p.policies.length)
    (hd1 : p.policyDefaults.categories = none)
    (hd2 : p.policyDefaults.controls = none)
    (hd3 : p.policyDefaults.complianceType = "")
    (hd4 : p.policyDefaults.remediationAction = "")
    (hd5 : p.policyDefaults.severity = "")
    (hd6 : p.policyDefaults.standards = none)
    (hp1 : (p.policies.getD i zeroPolicyConfig).categories = none)
    (hp2 : (p.policies.getD i zeroPolicyConfig).controls = none)
    (hp3 : (p.policies.getD i zeroPolicyConfig).complianceType = "")
    (hp4 : (p.policies.getD i zeroPolicyConfig).remediationAction = "")
    (hp5 : (p.policies.getD i zeroPolicyConfig).severity = "")
    (hp6 : (p.policies.getD i zeroPolicyConfig).standards = none) :
    ((applyDefaults p).policies.getD i zeroPolicyConfig).categories =
        some ["CM Configuration Management"] ∧
    ((applyDefaults p).policies.getD i zeroPolicyConfig).controls =
        some ["CM-2 Baseline Configuration"] ∧
    ((applyDefaults p).policies.getD i zeroPolicyConfig).complianceType = "musthave" ∧
    ((applyDefaults p).policies.getD i zeroPolicyConfig).remediationAction = "inform" ∧
    ((applyDefaults p).policies.getD i zeroPolicyConfig).severity = "low" ∧
    ((applyDefaults p).policies.getD i zeroPolicyConfig).standards =
        some ["NIST SP 800-53"] := by
  have hne : p.policies ≠ [] := by
    intro hnil
    rw [hnil] at h
    simp at h
  have hlen : i < (p.policies.map
      (defaultedPolicy (defaultedDefaults p.policyDefaults))).length := by
    simpa using h
  rw [List.getD_eq_getElem _ _ h] at hp1 hp2 hp3 hp4 hp5 hp6
  rw [applyDefaults_policies p hne, List.getD_eq_getElem _ _ hlen, List.getElem_map]
  simp [defaultedPolicy, defaultedDefaults, hd1, hd2, hd3, hd4, hd5, hd6,
        hp1, hp2, hp3, hp4, hp5, hp6]

/-- Witness for C3: the single-policy fixture resolves every field to
its fixed default. -/
theorem claim_C3_witness :
    ((applyDefaults pSingle).policies.getD 0 zeroPolicyConfig).categories =
        some ["CM Configuration Management"] ∧
    ((applyDefaults pSingle).policies.getD 0 zeroPolicyConfig).controls =
        some ["CM-2 Baseline Configuration"] ∧
    ((applyDefaults pSingle).policies.getD 0 zeroPolicyConfig).complianceType = "musthave" ∧
    ((applyDefaults pSingle).policies.getD 0 zeroPolicyConfig).remediationAction = "inform" ∧
    ((applyDefaults pSingle).policies.getD 0 zeroPolicyConfig).severity = "low" ∧
    ((applyDefaults pSingle).policies.getD 0 zeroPolicyConfig).standards =
        some ["NIST SP 800-53"] :=
  claim_C3_fixed_defaults pSingle 0 (by decide) rfl rfl rfl rfl rfl rfl
    rfl rfl rfl rfl rfl rfl

/-- If some remaining policy sets both placement fields, the validation
loop cannot succeed. -/
theorem assertValidPolicies_both_error (env : Env) :
    ∀ (l : List PolicyConfig) (seen : List String),
      (∃ pc ∈ l, pc.placement.clusterSelectors.length ≠ 0 ∧
        pc.placement.placementRulePath ≠ "") →
      ∃ e, assertValidPolicies env l seen = .error e := by
  intro l
  induction l with
  | nil => intro seen h; simp at h
  | cons pc rest ih =>
    intro seen h
    cases hv : validatePolicy env seen pc with
    | some e => exact ⟨e, by simp [assertValidPolicies, hv]⟩
    | none =>
      rcases h with ⟨pc', hmem, hboth⟩
      rcases List.mem_cons.mp hmem with heq | hmem'
      · subst heq
        rw [validatePolicy, if_pos hboth] at hv
        exact absurd hv (by simp)
      · rcases ih (pc.name :: seen) ⟨pc', hmem', hboth⟩ with ⟨e, he⟩
        exact ⟨e, by simp [assertValidPolicies, hv, he]⟩

/-- C5: a configuration in which some policy sets both
`placement.clusterSelectors` and `placement.placementRulePath` never
validates, whatever the rest of the configuration looks like. -/
theorem claim_C5_placement_mutual_exclusion (env : Env) (p : Plugin)
    (h : ∃ pc ∈ p.policies, pc.placement.clusterSelectors.length ≠ 0 ∧
      pc.placement.placementRulePath ≠ "") :
    ∃ e, assertValidConfig env p = .error e := by
  unfold assertValidConfig
  split
  · exact ⟨_, rfl⟩
  · split
    · exact ⟨_, rfl⟩
    · split
      · exact ⟨_, rfl⟩
      · exact assertValidPolicies_both_error env p.policies [] h

/-- Witness for C5 at the concrete doubly-placed configuration. -/
theorem claim_C5_witness : ∃ e, assertValidConfig envFix pBoth = .error e :=
  claim_C5_placement_mutual_exclusion envFix pBoth
    ⟨polBoth, by decide, by decide⟩

/-- A policy the loop accepts was not a duplicate of an earlier name
(and did not set both placement fields). -/
theorem validatePolicy_none_facts (env : Env) (seen : List String) (pc : PolicyConfig)
    (h : validatePolicy env seen pc = none) :
    ¬ (pc.placement.clusterSelectors.length ≠ 0 ∧ pc.placement.placementRulePath ≠ "") ∧
    ¬ seen.contains pc.name := by
  unfold validatePolicy at h
  split at h
  · simp at h
  · split at h
    · simp at h
    · split at h
      · simp at h
      · split at h
        · simp at h
        · split at h
          · simp at h
          · split at h
            · simp at h
            · refine ⟨by assumption, by simp_all⟩

/-- The checks of `validatePolicy` other than the duplicate-name one,
as a precondition. -/
def policyChecksOtherOk (env : Env) (pc : PolicyConfig) : Prop :=
  ¬ (pc.placement.clusterSelectors.length ≠ 0 ∧ pc.placement.placementRulePath ≠ "") ∧
  pc.manifests.length ≠ 0 ∧
  manifestError env pc.manifests = none ∧
  pc.name ≠ "" ∧
  ¬ (pc.placement.placementRulePath ≠ "" ∧ ¬ env.statOk pc.placement.placementRulePath)

instance (env : Env) (pc : PolicyConfig) : Decidable (policyChecksOtherOk env pc) := by
  unfold policyChecksOtherOk
  infer_instance

/-- Under the other checks, `validatePolicy` reduces to the
duplicate-name check. -/
theorem validatePolicy_of_otherOk (env : Env) (seen : List String) (pc : PolicyConfig)
    (h : policyChecksOtherOk env pc) :
    validatePolicy env seen pc =
      if seen.contains pc.name then
        some ("each policy must have a unique name set: " ++ pc.name)
      else none := by
  obtain ⟨h1, h2, h3, h4, h5⟩ := h
  simp only [validatePolicy, if_neg h1, if_neg h2, h3, if_neg h4, if_neg h5]

/-- With a repetition among the tracked names and the remaining policy
names, the validation loop cannot succeed. -/
theorem assertValidPolicies_dup_ne_ok (env : Env) :
    ∀ (l : List PolicyConfig) (seen : List String), seen.Nodup →
      ¬ (seen ++ l.map (fun pc => pc.name)).Nodup →
      ∃ e, assertValidPolicies env l seen = .error e := by
  intro l
  induction l with
  | nil =>
    intro seen h1 h2
    simp only [List.map_nil, List.append_nil] at h2
    exact absurd h1 h2
  | cons pc rest ih =>
    intro seen h1 h2
    cases hv : validatePolicy env seen pc with
    | some e => exact ⟨e, by simp [assertValidPolicies, hv]⟩
    | none =>
      have hnotmem : pc.name ∉ seen := by
        have := (validatePolicy_none_facts env seen pc hv).2
        simpa using this
      have hperm : (seen ++ pc.name :: rest.map (fun pc => pc.name)).Perm
          ((pc.name :: seen) ++ rest.map (fun pc => pc.name)) :=
        List.perm_middle
      have h2' : ¬ ((pc.name :: seen) ++ rest.map (fun pc => pc.name)).Nodup := by
        intro hn
        exact h2 (by simpa using (hperm.nodup_iff.mpr hn))
      rcases ih (pc.name :: seen) (List.nodup_cons.mpr ⟨hnotmem, h1⟩) h2' with ⟨e, he⟩
      exact ⟨e, by simp [assertValidPolicies, hv, he]⟩

/-- When every policy passes the other checks and there is a repetition,
the loop fails precisely with the duplicate-name message, naming a
repeated policy name. -/
theorem assertValidPolicies_dup_error (env : Env) :
    ∀ (l : List PolicyConfig) (seen : List String),
      (∀ pc ∈ l, policyChecksOtherOk env pc) → seen.Nodup →
      ¬ (seen ++ l.map (fun pc => pc.name)).Nodup →
      ∃ n, n ∈ l.map (fun pc => pc.name) ∧
        1 < (seen ++ l.map (fun pc => pc.name)).count n ∧
        assertValidPolicies env l seen =
          .error ("each policy must have a unique name set: " ++ n) := by
  intro l
  induction l with
  | nil =>
    intro seen _ h1 h2
    simp only [List.map_nil, List.append_nil] at h2
    exact absurd h1 h2
  | cons pc rest ih =>
    intro seen hok h1 h2
    have hvp := validatePolicy_of_otherOk env seen pc (hok pc (by simp))
    by_cases hc : pc.name ∈ seen
    · refine ⟨pc.name, by simp, ?_, ?_⟩
      · have hpos : 0 < seen.count pc.name := List.count_pos_iff.mpr hc
        have : (seen ++ (pc.name :: rest.map (fun pc => pc.name))).count pc.name =
            seen.count pc.name + (pc.name :: rest.map (fun pc => pc.name)).count pc.name :=
          List.count_append ..
        rw [List.map_cons, this, List.count_cons_self]
        omega
      · have hcontains : seen.contains pc.name = true := by simpa using hc
        rw [hcontains, if_pos rfl] at hvp
        simp [assertValidPolicies, hvp]
    · have hcontains : seen.contains pc.name = false := by simpa using hc
      rw [hcontains] at hvp
      simp only [Bool.false_eq_true, if_false] at hvp
      have hperm : (seen ++ pc.name :: rest.map (fun pc => pc.name)).Perm
          ((pc.name :: seen) ++ rest.map (fun pc => pc.name)) :=
        List.perm_middle
      have h2' : ¬ ((pc.name :: seen) ++ rest.map (fun pc => pc.name)).Nodup := by
        intro hn
        exact h2 (by simpa using (hperm.nodup_iff.mpr hn))
      rcases ih (pc.name :: seen) (fun q hq => hok q (by simp [hq]))
        (List.nodup_cons.mpr ⟨hc, h1⟩) h2' with ⟨n, hn1, hn2, hn3⟩
      refine ⟨n, by simp [hn1], ?_, by simp [assertValidPolicies, hvp, hn3]⟩
      rw [List.map_cons, hperm.count_eq]
      exact hn2

/-- C4: a configuration with two identically named policies never
validates; when every policy passes the remaining checks, the failure is
the duplicate-name error naming a repeated policy name. -/
theorem claim_C4_duplicate_names (env : Env) (p : Plugin)
    (hdup : ¬ (p.policies.map (fun pc => pc.name)).Nodup) :
    (∃ e, assertValidConfig env p = .error e) ∧
    (¬ (p.placementBindingDefaultsName = "" ∧ p.policies.length > 1) →
     p.policyDefaults.namespace_ ≠ "" →
     (∀ pc ∈ p.policies, policyChecksOtherOk env pc) →
     ∃ n, n ∈ p.policies.map (fun pc => pc.name) ∧
       1 < (p.policies.map (fun pc => pc.name)).count n ∧
       assertValidConfig env p =
         .error ("each policy must have a unique name set: " ++ n)) := by
  constructor
  · unfold assertValidConfig
    split
    · exact ⟨_, rfl⟩
    · split
      · exact ⟨_, rfl⟩
      · split
        · exact ⟨_, rfl⟩
        · exact assertValidPolicies_dup_ne_ok env p.policies [] List.nodup_nil
            (by simpa using hdup)
  · intro h1 h2 hok
    have hne : ¬ p.policies.length = 0 := by
      intro hz
      rw [List.length_eq_zero] at hz
      exact hdup (by simp [hz])
    rcases assertValidPolicies_dup_error env p.policies [] hok List.nodup_nil
      (by simpa using hdup) with ⟨n, hn1, hn2, hn3⟩
    refine ⟨n, hn1, by simpa using hn2, ?_⟩
    unfold assertValidConfig
    rw [if_neg h1, if_neg h2, if_neg hne]
    exact hn3

/-- Witness for C4 at the concrete duplicate-name configuration. -/
theorem claim_C4_witness :
    ∃ n, n ∈ pDup.policies.map (fun pc => pc.name) ∧
      1 < (pDup.policies.map (fun pc => pc.name)).count n ∧
      assertValidConfig envFix pDup =
        .error ("each policy must have a unique name set: " ++ n) :=
  (claim_C4_duplicate_names envFix pDup (by decide)).2 (by decide) (by decide) (by decide)

/-- Policies accepted by the validation loop never set both placement
fields. -/
theorem assertValidPolicies_ok_no_both (env : Env) :
    ∀ (l : List PolicyConfig) (seen : List String),
      assertValidPolicies env l seen = .ok () →
      ∀ pc ∈ l, ¬ (pc.placement.clusterSelectors.length ≠ 0 ∧
        pc.placement.placementRulePath ≠ "") := by
  intro l
  induction l with
  | nil => intro seen _ pc hmem; simp at hmem
  | cons pc0 rest ih =>
    intro seen hok pc hmem
    cases hv : validatePolicy env seen pc0 with
    | some e => rw [assertValidPolicies, hv] at hok; simp at hok
    | none =>
      rw [assertValidPolicies, hv] at hok
      rcases List.mem_cons.mp hmem with heq | hmem'
      · subst heq
        exact (validatePolicy_none_facts env seen pc hv).1
      · exact ih (pc0.name :: seen) hok pc hmem'

/-- C6: `applyDefaults` touches a policy's placement only when neither
placement field is set, in which case the default placement rule path is
preferred over the default cluster selectors; and a configuration that
passes `assertValidConfig` after defaulting has no policy with both
placement fields set. -/
theorem claim_C6_placement_defaulting_frame (env : Env) (p : Plugin) :
    (∀ i, i < p.policies.length →
      (((p.policies.getD i zeroPolicyConfig).placement.clusterSelectors.length ≠ 0 ∨
        (p.policies.getD i zeroPolicyConfig).placement.placementRulePath ≠ "") →
        ((applyDefaults p).policies.getD i zeroPolicyConfig).placement =
          (p.policies.getD i zeroPolicyConfig).placement) ∧
      ((p.policies.getD i zeroPolicyConfig).placement.clusterSelectors.length = 0 ∧
        (p.policies.getD i zeroPolicyConfig).placement.placementRulePath = "" →
        ((applyDefaults p).policies.getD i zeroPolicyConfig).placement =
          (if p.policyDefaults.placement.placementRulePath ≠ "" then
            { (p.policies.getD i zeroPolicyConfig).placement with
              placementRulePath := p.policyDefaults.placement.placementRulePath }
          else if p.policyDefaults.placement.clusterSelectors.length > 0 then
            { (p.policies.getD i zeroPolicyConfig).placement with
              clusterSelectors := p.policyDefaults.placement.clusterSelectors }
          else (p.policies.getD i zeroPolicyConfig).placement))) ∧
    (assertValidConfig env (applyDefaults p) = .ok () →
      ∀ pc ∈ (applyDefaults p).policies,
        ¬ (pc.placement.clusterSelectors.length ≠ 0 ∧
          pc.placement.placementRulePath ≠ "")) := by
  constructor
  · intro i hi
    have hne : p.policies ≠ [] :=
      List.ne_nil_of_length_pos (Nat.lt_of_le_of_lt (Nat.zero_le i) hi)
    have hlen : i < (p.policies.map
        (defaultedPolicy (defaultedDefaults p.policyDefaults))).length := by
      simpa using hi
    rw [applyDefaults_policies p hne, List.getD_eq_getElem _ _ hlen, List.getElem_map,
        List.getD_eq_getElem _ _ hi]
    constructor
    · intro hset
      simp only [defaultedPolicy]
      rw [if_neg (by tauto)]
    · intro hunset
      simp only [defaultedPolicy]
      rw [if_pos hunset]
      simp [defaultedDefaults]
  · intro hok pc hmem
    unfold assertValidConfig at hok
    split at hok
    · simp at hok
    · split at hok
      · simp at hok
      · split at hok
        · simp at hok
        · exact assertValidPolicies_ok_no_both env _ [] hok pc hmem

/-- Witness for C6: `policy-a` sets a placement rule path, so its
placement is untouched by `applyDefaults`. -/
theorem claim_C6_witness :
    ((applyDefaults pABC).policies.getD 0 zeroPolicyConfig).placement =
      (pABC.policies.getD 0 zeroPolicyConfig).placement :=
  ((claim_C6_placement_defaulting_frame envFix pABC).1 0 (by decide)).1 (by decide)

/-- Selector lookup only depends on the key/value set when keys are
unique (Go map semantics). -/
theorem lookupSel_perm {sel1 sel2 : List (String × String)}
    (hperm : sel1.Perm sel2) (hnd : (sel2.map Prod.fst).Nodup) (k : String) :
    lookupSel sel1 k = lookupSel sel2 k := by
  unfold lookupSel
  cases h1 : sel1.find? (fun kv => kv.1 == k) with
  | none =>
    cases h2 : sel2.find? (fun kv => kv.1 == k) with
    | none => rfl
    | some y =>
      have hy := List.find?_some h2
      have hymem : y ∈ sel1 := hperm.mem_iff.mpr (List.mem_of_find?_eq_some h2)
      have := List.find?_eq_none.mp h1 y hymem
      exact absurd hy this
  | some x =>
    cases h2 : sel2.find? (fun kv => kv.1 == k) with
    | none =>
      have hx := List.find?_some h1
      have hxmem : x ∈ sel2 := hperm.mem_iff.mp (List.mem_of_find?_eq_some h1)
      have := List.find?_eq_none.mp h2 x hxmem
      exact absurd hx this
    | some y =>
      have hx : x.1 = k := by simpa using List.find?_some h1
      have hy : y.1 = k := by simpa using List.find?_some h2
      have hxmem : x ∈ sel2 := hperm.mem_iff.mp (List.mem_of_find?_eq_some h1)
      have hymem : y ∈ sel2 := List.mem_of_find?_eq_some h2
      have : x = y :=
        List.inj_on_of_nodup_map hnd hxmem hymem (by rw [hx, hy])
      rw [this]

/-- C8: the synthesized placement rule carries one match expression per
selector key (`In`, single value), with keys in ascending lexicographic
order, and the result is unchanged under permutation of the selector
entries. -/
theorem claim_C8_sorted_match_expressions (env : Env) (ns : String) (pc : PolicyConfig)
    (skip : List String) (hpath : pc.placement.placementRulePath = "")
    (hnd : (pc.placement.clusterSelectors.map Prod.fst).Nodup) :
    ∃ doc : PlacementRuleDoc,
      createPlacementRule env ns pc skip =
        .ok ("placement-" ++ pc.name, [.placementRule doc]) ∧
      (doc.matchExpressions.map (fun e => e.key)).Perm
        (pc.placement.clusterSelectors.map Prod.fst) ∧
      (∀ e ∈ doc.matchExpressions, e.operator = "In" ∧
        e.values = [lookupSel pc.placement.clusterSelectors e.key]) ∧
      List.Sorted (fun a b => a ≤ b) (doc.matchExpressions.map (fun e => e.key)) ∧
      (∀ sel2 : List (String × String), sel2.Perm pc.placement.clusterSelectors →
        createPlacementRule env ns
          { pc with placement := { pc.placement with clusterSelectors := sel2 } } skip =
          createPlacementRule env ns pc skip) := by
  refine ⟨{ apiVersion := placementRuleAPIVersion, kind := placementRuleKind,
            name := "placement-" ++ pc.name, namespace_ := ns,
            matchExpressions :=
              (List.insertionSort (· ≤ ·)
                  (pc.placement.clusterSelectors.map Prod.fst)).map
                (fun label =>
                  { key := label, operator := "In",
                    values := [lookupSel pc.placement.clusterSelectors label] }) },
          ?_, ?_, ?_, ?_, ?_⟩
  · simp [createPlacementRule, hpath]
  · have hmm : ((List.insertionSort (· ≤ ·)
        (pc.placement.clusterSelectors.map Prod.fst)).map
          (fun label =>
            ({ key := label, operator := "In",
               values := [lookupSel pc.placement.clusterSelectors label] }
              : MatchExpression))).map (fun e => e.key) =
        List.insertionSort (· ≤ ·) (pc.placement.clusterSelectors.map Prod.fst) := by
      rw [List.map_map]
      exact (List.map_congr_left fun a _ => rfl).trans (List.map_id _)
    rw [hmm]
    exact List.perm_insertionSort _ _
  · intro e hmem
    rcases List.mem_map.mp hmem with ⟨label, _, heq⟩
    subst heq
    exact ⟨rfl, rfl⟩
  · have hmm : ((List.insertionSort (· ≤ ·)
        (pc.placement.clusterSelectors.map Prod.fst)).map
          (fun label =>
            ({ key := label, operator := "In",
               values := [lookupSel pc.placement.clusterSelectors label] }
              : MatchExpression))).map (fun e => e.key) =
        List.insertionSort (· ≤ ·) (pc.placement.clusterSelectors.map Prod.fst) := by
      rw [List.map_map]
      exact (List.map_congr_left fun a _ => rfl).trans (List.map_id _)
    rw [hmm]
    exact List.sorted_insertionSort _ _
  · intro sel2 hp
    have hpmap : (sel2.map Prod.fst).Perm (pc.placement.clusterSelectors.map Prod.fst) :=
      hp.map Prod.fst
    have hkeys : List.insertionSort (· ≤ ·) (sel2.map Prod.fst) =
        List.insertionSort (· ≤ ·) (pc.placement.clusterSelectors.map Prod.fst) := by
      refine List.eq_of_perm_of_sorted ?_ (List.sorted_insertionSort _ _)
        (List.sorted_insertionSort _ _)
      exact (List.perm_insertionSort _ _).trans
        (hpmap.trans (List.perm_insertionSort _ _).symm)
    have hlook : ∀ label, lookupSel sel2 label =
        lookupSel pc.placement.clusterSelectors label :=
      fun label => lookupSel_perm hp hnd label
    simp only [createPlacementRule, hpath]
    rw [hkeys]
    have hmaps : (List.insertionSort (· ≤ ·)
        (pc.placement.clusterSelectors.map Prod.fst)).map
        (fun label =>
          ({ key := label, operator := "In", values := [lookupSel sel2 label] }
            : MatchExpression)) =
        (List.insertionSort (· ≤ ·)
          (pc.placement.clusterSelectors.map Prod.fst)).map
        (fun label =>
          ({ key := label, operator := "In",
             values := [lookupSel pc.placement.clusterSelectors label] }
            : MatchExpression)) :=
      List.map_congr_left (fun label _ => by rw [hlook label])
    rw [hmaps]

/-- Case analysis of a successful external-path `createPlacementRule`
call: either the resolved name was in `skip` and nothing was emitted, or
it was new and exactly the found manifest was emitted. -/
theorem createPlacementRule_external_ok (env : Env) (ns : String) (pc : PolicyConfig)
    (skip : List String) (nm : String) (ds : List OutDoc)
    (hpath : pc.placement.placementRulePath ≠ "")
    (hok : createPlacementRule env ns pc skip = .ok (nm, ds)) :
    (nm ∈ skip ∧ ds = []) ∨
    (nm ∉ skip ∧ ∃ m, ds = [.placementRuleRaw m] ∧
      m.nestedString? ["metadata", "name"] = some nm) := by
  simp only [createPlacementRule] at hok
  rw [if_pos hpath] at hok
  split at hok
  · exact absurd hok (by simp)
  · split at hok
    · rename_i m hfind
      split at hok
      · exact absurd hok (by simp)
      · rename_i nm0 hname
        split at hok
        · exact absurd hok (by simp)
        · split at hok
          · exact absurd hok (by simp)
          · split at hok
            · rename_i hc
              simp only [Except.ok.injEq, Prod.mk.injEq] at hok
              obtain ⟨h1, h2⟩ := hok
              subst h1
              subst h2
              exact Or.inl ⟨by simpa using hc, rfl⟩
            · rename_i hc
              split at hok
              · exact absurd hok (by simp)
              · simp only [Except.ok.injEq, Prod.mk.injEq] at hok
                obtain ⟨h1, h2⟩ := hok
                subst h1
                subst h2
                exact Or.inr ⟨by simpa using hc, m, rfl, hname⟩
    · split at hok
      · rename_i hc
        simp only [Except.ok.injEq, Prod.mk.injEq] at hok
        obtain ⟨h1, h2⟩ := hok
        subst h1
        subst h2
        exact Or.inl ⟨by simpa using hc, rfl⟩
      · exact absurd hok (by simp)

/-- A second external-path call whose resolved name is already in the
skip set returns the same name and emits nothing (idempotent reuse). -/
theorem createPlacementRule_skip_reuse (env : Env) (ns : String) (pc : PolicyConfig)
    (skip skip2 : List String) (nm : String) (ds : List OutDoc)
    (hpath : pc.placement.placementRulePath ≠ "")
    (hok : createPlacementRule env ns pc skip = .ok (nm, ds)) (hmem : nm ∈ skip2) :
    createPlacementRule env ns pc skip2 = .ok (nm, []) := by
  simp only [createPlacementRule] at hok ⊢
  rw [if_pos hpath] at hok ⊢
  split at hok
  · exact absurd hok (by simp)
  · split at hok
    · split at hok
      · exact absurd hok (by simp)
      · rename_i nm0 _
        split at hok
        · exact absurd hok (by simp)
        · split at hok
          · exact absurd hok (by simp)
          · rename_i hnsp
            rw [if_neg hnsp]
            have hnm : nm0 = nm := by
              split at hok
              · simp only [Except.ok.injEq, Prod.mk.injEq] at hok
                exact hok.1
              · split at hok
                · exact absurd hok (by simp)
                · simp only [Except.ok.injEq, Prod.mk.injEq] at hok
                  exact hok.1
            subst hnm
            have hc2 : skip2.contains nm0 = true := by simpa using hmem
            rw [if_pos hc2]
    · split at hok
      · simp only [Except.ok.injEq, Prod.mk.injEq] at hok
        obtain ⟨h1, h2⟩ := hok
        subst h1
        have hc2 : skip2.contains "" = true := by simpa using hmem
        rw [if_pos hc2]
      · exact absurd hok (by simp)

/-- Invariant of the placement-resolution loop over external-path
policies: emitted placement-document names are distinct, and a name is
emitted exactly when it is resolved and not already in `seen`. -/
theorem resolvePlacements_dedup (env : Env) (ns : String) :
    ∀ (l : List PolicyConfig) (seen : List String) (docs : List OutDoc)
      (names : List String),
      (∀ pc ∈ l, pc.placement.placementRulePath ≠ "") →
      resolvePlacements env ns l seen = .ok (docs, names) →
      (docs.filterMap placementDocName).Nodup ∧
      (∀ nm, nm ∈ docs.filterMap placementDocName ↔ (nm ∈ names ∧ nm ∉ seen)) := by
  intro l
  induction l with
  | nil =>
    intro seen docs names _ hres
    simp only [resolvePlacements, Except.ok.injEq, Prod.mk.injEq] at hres
    obtain ⟨h1, h2⟩ := hres
    subst h1
    subst h2
    exact ⟨List.nodup_nil, fun nm => by simp⟩
  | cons pc rest ih =>
    intro seen docs names hext hres
    simp only [resolvePlacements] at hres
    split at hres
    · exact absurd hres (by simp)
    · rename_i nm0 ds hcr
      split at hres
      · exact absurd hres (by simp)
      · rename_i ds' nms hres'
        simp only [Except.ok.injEq, Prod.mk.injEq] at hres
        obtain ⟨hdocs, hnames⟩ := hres
        subst hdocs
        subst hnames
        have hcases := createPlacementRule_external_ok env ns pc seen nm0 ds
          (hext pc (by simp)) hcr
        have hih := ih (nm0 :: seen) ds' nms
          (fun q hq => hext q (by simp [hq])) hres'
        rcases hcases with ⟨hc, hds⟩ | ⟨hc, m, hds, hname⟩
        · subst hds
          refine ⟨by simpa using hih.1, ?_⟩
          intro nm
          simp only [List.nil_append]
          rw [hih.2 nm]
          constructor
          · rintro ⟨h1, h2⟩
            refine ⟨List.mem_cons_of_mem _ h1, ?_⟩
            intro hin
            exact h2 (List.mem_cons_of_mem _ hin)
          · rintro ⟨h1, h2⟩
            rcases List.mem_cons.mp h1 with heq | hmem'
            · subst heq
              exact absurd hc h2
            · refine ⟨hmem', ?_⟩
              intro hin
              rcases List.mem_cons.mp hin with heq | hmem''
              · subst heq
                exact h2 hc
              · exact h2 hmem''
        · subst hds
          have hfm : (([(.placementRuleRaw m : OutDoc)] ++ ds').filterMap
              placementDocName) = nm0 :: ds'.filterMap placementDocName := by
            simp [placementDocName, hname]
          refine ⟨?_, ?_⟩
          · rw [hfm]
            refine List.nodup_cons.mpr ⟨?_, hih.1⟩
            intro hin
            exact ((hih.2 nm0).mp hin).2 (List.mem_cons_self _ _)
          · intro nm
            rw [hfm]
            constructor
            · intro hin
              rcases List.mem_cons.mp hin with heq | hmem'
              · subst heq
                exact ⟨List.mem_cons_self _ _, hc⟩
              · rcases (hih.2 nm).mp hmem' with ⟨h1, h2⟩
                refine ⟨List.mem_cons_of_mem _ h1, ?_⟩
                intro hin2
                exact h2 (List.mem_cons_of_mem _ hin2)
            · rintro ⟨h1, h2⟩
              rcases List.mem_cons.mp h1 with heq | hmem'
              · subst heq
                exact List.mem_cons_self _ _
              · by_cases hnm : nm = nm0
                · subst hnm
                  exact List.mem_cons_self _ _
                · refine List.mem_cons_of_mem _ ((hih.2 nm).mpr ⟨hmem', ?_⟩)
                  intro hin2
                  rcases List.mem_cons.mp hin2 with heq | hmem''
                  · exact hnm heq
                  · exact h2 hmem''

/-- Policy creation emits no placement documents. -/
theorem createPolicies_no_placements (env : Env) (p : Plugin) :
    ∀ (l : List PolicyConfig) (docs : List OutDoc),
      createPolicies env p l = .ok docs →
      docs.filterMap placementDocName = [] := by
  intro l
  induction l with
  | nil =>
    intro docs h
    simp only [createPolicies, Except.ok.injEq] at h
    subst h
    rfl
  | cons pc rest ih =>
    intro docs h
    simp only [createPolicies] at h
    split at h
    · exact absurd h (by simp)
    · rename_i d hd
      split at h
      · exact absurd h (by simp)
      · rename_i ds hds
        simp only [Except.ok.injEq] at h
        subst h
        have hdpol : placementDocName d = none := by
          simp only [createPolicy] at hd
          split at hd
          · exact absurd hd (by simp)
          · simp only [Except.ok.injEq] at hd
            subst hd
            rfl
        simp [List.filterMap_cons, hdpol, ih ds hds]

/-- The binding loop emits no placement documents. -/
theorem createBindings_no_placements (p : Plugin) (groups : List (String × List Nat)) :
    ∀ (iter : List String) (count : Nat),
      (createBindings p groups iter count).filterMap placementDocName = [] := by
  intro iter
  induction iter with
  | nil => intro count; rfl
  | cons nm rest ih =>
    intro count
    simp only [createBindings, createPlacementBinding, List.filterMap_cons]
    simpa [placementDocName] using ih (count + 1)

/-- C7: over external placement files, every resolved placement name is
emitted exactly once (re-resolution of a name already in the emitted set
returns the name and appends nothing). -/
theorem claim_C7_placement_dedup (env : Env) (ns : String)
    (policies : List PolicyConfig) (docs : List OutDoc) (names : List String)
    (hext : ∀ pc ∈ policies, pc.placement.placementRulePath ≠ "")
    (hres : resolvePlacements env ns policies [] = .ok (docs, names)) :
    (docs.filterMap placementDocName).Nodup ∧
    (∀ nm, nm ∈ names ↔ nm ∈ docs.filterMap placementDocName) ∧
    (∀ (pc : PolicyConfig) (skip skip2 : List String) (nm : String) (ds : List OutDoc),
      pc.placement.placementRulePath ≠ "" →
      createPlacementRule env ns pc skip = .ok (nm, ds) → nm ∈ skip2 →
      createPlacementRule env ns pc skip2 = .ok (nm, [])) ∧
    (∀ (p : Plugin) (iter : List String) (gdocs : List OutDoc),
      p.policies = policies → p.policyDefaults.namespace_ = ns →
      Generate env iter p = .ok gdocs →
      gdocs.filterMap placementDocName = docs.filterMap placementDocName) := by
  have h := resolvePlacements_dedup env ns policies [] docs names hext hres
  refine ⟨h.1, ?_, ?_, ?_⟩
  · intro nm
    constructor
    · intro hn
      exact (h.2 nm).mpr ⟨hn, by simp⟩
    · intro hf
      exact ((h.2 nm).mp hf).1
  · intro pc skip skip2 nm ds hp hok hmem
    exact createPlacementRule_skip_reuse env ns pc skip skip2 nm ds hp hok hmem
  · intro p iter gdocs hp hns hq
    simp only [Generate] at hq
    split at hq
    · exact absurd hq (by simp)
    · rename_i polDocs hpol
      split at hq
      · exact absurd hq (by simp)
      · rename_i rdocs' names' hres2
        rw [hns, hp, hres] at hres2
        simp only [Except.ok.injEq, Prod.mk.injEq] at hres2
        obtain ⟨h1, h2⟩ := hres2
        subst h1
        subst h2
        simp only [Except.ok.injEq] at hq
        subst hq
        rw [List.filterMap_append, List.filterMap_append]
        rw [createPolicies_no_placements env p p.policies polDocs hpol]
        rw [createBindings_no_placements p _ iter 0]
        simp

/-- Witness for C7: `policy-a` and `policy-c` resolve to the same
external placement, which is emitted once. -/
theorem claim_C7_witness :
    (([(.placementRuleRaw plrManifest : OutDoc)].filterMap placementDocName).Nodup ∧
    (∀ nm, nm ∈ ["my-plr", "my-plr"] ↔
      nm ∈ [(.placementRuleRaw plrManifest : OutDoc)].filterMap placementDocName) ∧
    (∀ (pc : PolicyConfig) (skip skip2 : List String) (nm : String) (ds : List OutDoc),
      pc.placement.placementRulePath ≠ "" →
      createPlacementRule envFix "ns" pc skip = .ok (nm, ds) → nm ∈ skip2 →
      createPlacementRule envFix "ns" pc skip2 = .ok (nm, [])) ∧
    (∀ (p : Plugin) (iter : List String) (gdocs : List OutDoc),
      p.policies = [polA, polC] → p.policyDefaults.namespace_ = "ns" →
      Generate envFix iter p = .ok gdocs →
      gdocs.filterMap placementDocName =
        [(.placementRuleRaw plrManifest : OutDoc)].filterMap placementDocName)) :=
  claim_C7_placement_dedup envFix "ns" [polA, polC]
    [(.placementRuleRaw plrManifest : OutDoc)] ["my-plr", "my-plr"]
    (by decide) rfl

/-- The resolution loop resolves exactly one name per policy. -/
theorem resolvePlacements_length (env : Env) (ns : String) :
    ∀ (l : List PolicyConfig) (seen : List String) (docs : List OutDoc)
      (names : List String),
      resolvePlacements env ns l seen = .ok (docs, names) →
      names.length = l.length := by
  intro l
  induction l with
  | nil =>
    intro seen docs names hres
    simp only [resolvePlacements, Except.ok.injEq, Prod.mk.injEq] at hres
    obtain ⟨_, h2⟩ := hres
    subst h2
    rfl
  | cons pc rest ih =>
    intro seen docs names hres
    simp only [resolvePlacements] at hres
    split at hres
    · exact absurd hres (by simp)
    · split at hres
      · exact absurd hres (by simp)
      · rename_i ds' nms hres'
        simp only [Except.ok.injEq, Prod.mk.injEq] at hres
        obtain ⟨_, h2⟩ := hres
        subst h2
        simpa using ih _ ds' nms hres'

/-- Appending a fresh name to the group map adds a new singleton group
at the end. -/
theorem addToGroup_not_mem :
    ∀ (acc : List (String × List Nat)) (nm : String) (i : Nat),
      nm ∉ acc.map Prod.fst → addToGroup acc nm i = acc ++ [(nm, [i])] := by
  intro acc
  induction acc with
  | nil => intro nm i _; rfl
  | cons g rest ih =>
    intro nm i hnot
    have hne : g.1 ≠ nm := by
      intro h
      exact hnot (by simp [h])
    simp only [addToGroup, if_neg hne]
    rw [ih nm i (fun h => hnot (by simp [h]))]
    rfl

/-- With distinct names, grouping yields one group per name, keys in
input order. -/
theorem groupByNameAux_keys :
    ∀ (names : List String) (acc : List (String × List Nat)) (i : Nat),
      names.Nodup → (∀ nm ∈ names, nm ∉ acc.map Prod.fst) →
      (groupByNameAux acc i names).map Prod.fst = acc.map Prod.fst ++ names := by
  intro names
  induction names with
  | nil => intro acc i _ _; simp [groupByNameAux]
  | cons nm rest ih =>
    intro acc i hnd hfresh
    simp only [groupByNameAux]
    rw [addToGroup_not_mem acc nm i (hfresh nm (by simp))]
    rw [ih (acc ++ [(nm, [i])]) (i + 1) (List.nodup_cons.mp hnd).2 ?_]
    · simp
    · intro x hx
      simp only [List.map_append, List.mem_append]
      rintro (h | h)
      · exact hfresh x (by simp [hx]) h
      · have : x = nm := by simpa using h
        subst this
        exact (List.nodup_cons.mp hnd).1 hx

/-- Key list of the group map over distinct names. -/
theorem groupByName_keys (names : List String) (hnd : names.Nodup) :
    (groupByName names).map Prod.fst = names := by
  simpa using groupByNameAux_keys names [] 0 hnd (by simp)

/-- Policy creation emits only Policy documents, never bindings. -/
theorem createPolicies_no_bindings (env : Env) (p : Plugin) :
    ∀ (l : List PolicyConfig) (docs : List OutDoc),
      createPolicies env p l = .ok docs →
      docs.filterMap bindingDocOf = [] := by
  intro l
  induction l with
  | nil =>
    intro docs h
    simp only [createPolicies, Except.ok.injEq] at h
    subst h
    rfl
  | cons pc rest ih =>
    intro docs h
    simp only [createPolicies] at h
    split at h
    · exact absurd h (by simp)
    · rename_i d hd
      split at h
      · exact absurd h (by simp)
      · rename_i ds hds
        simp only [Except.ok.injEq] at h
        subst h
        have hdpol : bindingDocOf d = none := by
          simp only [createPolicy] at hd
          split at hd
          · exact absurd hd (by simp)
          · simp only [Except.ok.injEq] at hd
            subst hd
            rfl
        simp [List.filterMap_cons, hdpol, ih ds hds]

/-- A placement-rule resolution step emits only placement documents. -/
theorem createPlacementRule_no_bindings (env : Env) (ns : String) (pc : PolicyConfig)
    (skip : List String) (nm : String) (ds : List OutDoc)
    (h : createPlacementRule env ns pc skip = .ok (nm, ds)) :
    ds.filterMap bindingDocOf = [] := by
  simp only [createPlacementRule] at h
  split at h
  · split at h
    · exact absurd h (by simp)
    · split at h
      · split at h
        · exact absurd h (by simp)
        · split at h
          · exact absurd h (by simp)
          · split at h
            · exact absurd h (by simp)
            · split at h
              · simp only [Except.ok.injEq, Prod.mk.injEq] at h
                obtain ⟨_, h2⟩ := h
                subst h2
                rfl
              · split at h
                · exact absurd h (by simp)
                · simp only [Except.ok.injEq, Prod.mk.injEq] at h
                  obtain ⟨_, h2⟩ := h
                  subst h2
                  rfl
      · split at h
        · simp only [Except.ok.injEq, Prod.mk.injEq] at h
          obtain ⟨_, h2⟩ := h
          subst h2
          rfl
        · exact absurd h (by simp)
  · simp only [Except.ok.injEq, Prod.mk.injEq] at h
    obtain ⟨_, h2⟩ := h
    subst h2
    rfl

/-- The resolution loop emits only placement documents. -/
theorem resolvePlacements_no_bindings (env : Env) (ns : String) :
    ∀ (l : List PolicyConfig) (seen : List String) (docs : List OutDoc)
      (names : List String),
      resolvePlacements env ns l seen = .ok (docs, names) →
      docs.filterMap bindingDocOf = [] := by
  intro l
  induction l with
  | nil =>
    intro seen docs names h
    simp only [resolvePlacements, Except.ok.injEq, Prod.mk.injEq] at h
    obtain ⟨h1, _⟩ := h
    subst h1
    rfl
  | cons pc rest ih =>
    intro seen docs names h
    simp only [resolvePlacements] at h
    split at h
    · exact absurd h (by simp)
    · rename_i nm0 ds hcr
      split at h
      · exact absurd h (by simp)
      · rename_i ds' nms hres'
        simp only [Except.ok.injEq, Prod.mk.injEq] at h
        obtain ⟨h1, _⟩ := h
        subst h1
        rw [List.filterMap_append]
        rw [createPlacementRule_no_bindings env ns pc seen nm0 ds hcr,
            ih (nm0 :: seen) ds' nms hres']
        rfl

/-- The binding loop emits one binding per iterated group key, named
after its 1-based processing position: the base name first, then the
base with suffixes 2, 3, …. -/
theorem createBindings_names (p : Plugin) (groups : List (String × List Nat)) :
    ∀ (iter : List String) (count : Nat),
      ((createBindings p groups iter count).filterMap bindingDocOf).map
        (fun b => b.name) =
      (List.range iter.length).map
        (fun j => if count + 1 + j = 1 then p.placementBindingDefaultsName
                  else p.placementBindingDefaultsName ++ toString (count + 1 + j)) := by
  intro iter
  induction iter with
  | nil => intro count; simp [createBindings]
  | cons nm rest ih =>
    intro count
    simp only [createBindings, createPlacementBinding, List.filterMap_cons, bindingDocOf,
      List.map_cons]
    rw [ih (count + 1)]
    rw [List.length_cons, List.range_succ_eq_map, List.map_cons, List.map_map]
    congr 1
    exact List.map_congr_left fun j hj => by
      have h2 : count + 1 + (j + 1) = count + 1 + 1 + j := by omega
      simp only [Function.comp_apply, Nat.succ_eq_add_one, h2]

/-- C9: when every policy resolves to a distinct placement name,
`Generate` emits exactly one binding per policy, named `base`, `base2`,
`base3`, … in group-processing order. -/
theorem claim_C9_binding_naming (env : Env) (p : Plugin) (iter : List String)
    (docs rdocs : List OutDoc) (names : List String)
    (hres : resolvePlacements env p.policyDefaults.namespace_ p.policies [] =
      .ok (rdocs, names))
    (hnd : names.Nodup)
    (hiter : iter.Perm ((groupByName names).map Prod.fst))
    (hgen : Generate env iter p = .ok docs) :
    (docs.filterMap bindingDocOf).length = p.policies.length ∧
    (docs.filterMap bindingDocOf).map (fun b => b.name) =
      (List.range p.policies.length).map
        (fun j => if j = 0 then p.placementBindingDefaultsName
                  else p.placementBindingDefaultsName ++ toString (j + 1)) := by
  have hlen : iter.length = p.policies.length := by
    rw [hiter.length_eq, groupByName_keys names hnd]
    exact resolvePlacements_length env p.policyDefaults.namespace_ p.policies []
      rdocs names hres
  simp only [Generate] at hgen
  split at hgen
  · exact absurd hgen (by simp)
  · rename_i polDocs hpol
    split at hgen
    · exact absurd hgen (by simp)
    · rename_i rdocs' names' hres'
      rw [hres] at hres'
      simp only [Except.ok.injEq, Prod.mk.injEq] at hres'
      obtain ⟨h1, h2⟩ := hres'
      subst h1
      subst h2
      simp only [Except.ok.injEq] at hgen
      subst hgen
      have hsecond : ((polDocs ++ rdocs ++
          createBindings p (groupByName names) iter 0).filterMap bindingDocOf).map
            (fun b => b.name) =
          (List.range p.policies.length).map
            (fun j => if j = 0 then p.placementBindingDefaultsName
                      else p.placementBindingDefaultsName ++ toString (j + 1)) := by
        rw [List.filterMap_append, List.filterMap_append]
        rw [createPolicies_no_bindings env p p.policies polDocs hpol]
        rw [resolvePlacements_no_bindings env p.policyDefaults.namespace_ p.policies []
          rdocs names hres]
        simp only [List.nil_append]
        rw [createBindings_names p (groupByName names) iter 0, hlen]
        apply List.map_congr_left
        intro j _
        have hc : 0 + 1 + j = j + 1 := by omega
        rw [hc]
        refine if_congr ?_ rfl rfl
        omega
      refine ⟨?_, hsecond⟩
      have := congrArg List.length hsecond
      simpa using this

/-- Witness for C9: two policies with distinct synthesized placements
yield bindings `binding` and `binding2`. -/
theorem claim_C9_witness :
    (docsBD.filterMap bindingDocOf).length = pBD.policies.length ∧
    (docsBD.filterMap bindingDocOf).map (fun b => b.name) =
      (List.range pBD.policies.length).map
        (fun j => if j = 0 then pBD.placementBindingDefaultsName
                  else pBD.placementBindingDefaultsName ++ toString (j + 1)) :=
  claim_C9_binding_naming envFix pBD ["placement-policy-b", "placement-policy-d"]
    docsBD rdocsBD ["placement-policy-b", "placement-policy-d"]
    rfl (by decide) (by decide) rfl

/-- C1 (code bug): on `pABC`, the group for placement `my-plr` holds
`policy-a` and `policy-c`, yet the emitted binding for `my-plr` lists
subjects `policy-a` and `policy-b` — the loop indexes the policy list
by the counter over `policyIdxs` instead of by its elements — while the
binding for `placement-policy-b` lists only `policy-a`.  Subject
kind/apiGroup constants are carried as the claim states. -/
theorem claim_C1_binding_subjects_bug :
    (resolvePlacements envFix "ns" pABC.policies []).map Prod.snd =
      .ok ["my-plr", "placement-policy-b", "my-plr"] ∧
    (Generate envFix ["my-plr", "placement-policy-b"] pABC).map
      (fun docs => docs.filterMap (fun d => (bindingDocOf d).map
        (fun b => (b.placementRef.name, b.subjects.map (fun s => s.name))))) =
      .ok [("my-plr", ["policy-a", "policy-b"]),
           ("placement-policy-b", ["policy-a"])] ∧
    (Generate envFix ["my-plr", "placement-policy-b"] pABC).map
      (fun docs => docs.filterMap (fun d => (bindingDocOf d).map
        (fun b => b.subjects.map (fun s => (s.kind, s.apiGroup))))) =
      .ok [[("Policy", "policy.open-cluster-management.io/v1"),
            ("Policy", "policy.open-cluster-management.io/v1")],
           [("Policy", "policy.open-cluster-management.io/v1")]] := by
  refine ⟨rfl, rfl, rfl⟩

/-- C2 (code bug): `getPolicyTemplate` places the decoded ConfigMap
document itself in `object-templates`, bare: the entry is the decoded
manifest and carries no `complianceType` key, although the policy's
complianceType is `musthave`. -/
theorem claim_C2_object_template_not_wrapped :
    (getPolicyTemplate envFix
        { polX with complianceType := "musthave" }).map
      (fun tpl => tpl.objectTemplates) = .ok [cmManifest] ∧
    cmManifest.lookup? "complianceType" = none := by
  refine ⟨rfl, rfl⟩

/-- Witness for C8 at selectors given zebra-first: the synthesized rule
sorts `apple` before `zebra` whatever the input order. -/
theorem claim_C8_witness :
    ∃ doc : PlacementRuleDoc,
      createPlacementRule envFix "ns" polSel [] =
        .ok ("placement-" ++ polSel.name, [.placementRule doc]) ∧
      (doc.matchExpressions.map (fun e => e.key)).Perm
        (polSel.placement.clusterSelectors.map Prod.fst) ∧
      (∀ e ∈ doc.matchExpressions, e.operator = "In" ∧
        e.values = [lookupSel polSel.placement.clusterSelectors e.key]) ∧
      List.Sorted (fun a b => a ≤ b) (doc.matchExpressions.map (fun e => e.key)) ∧
      (∀ sel2 : List (String × String), sel2.Perm polSel.placement.clusterSelectors →
        createPlacementRule envFix "ns"
          { polSel with placement :=
              { polSel.placement with clusterSelectors := sel2 } } [] =
          createPlacementRule envFix "ns" polSel []) :=
  claim_C8_sorted_match_expressions envFix "ns" polSel [] rfl (by decide)

/-- Counterexample for C4 as universally stated: a configuration with a
repeated policy name whose defaults namespace is empty fails with the
namespace error, whose message does not name (or even mention) the
offending policy. -/
theorem claim_C4_counterexample :
    (¬ (pDupNoNs.policies.map (fun pc => pc.name)).Nodup) ∧
    assertValidConfig envFix pDupNoNs =
      .error "policyDefaults.namespace is empty but it must be set" ∧
    (∀ pc ∈ pDupNoNs.policies,
      assertValidConfig envFix pDupNoNs ≠
        .error ("each policy must have a unique name set: " ++ pc.name)) ∧
    (∀ pc ∈ pDupNoNs.policies,
      ¬ pc.name.data <:+:
        "policyDefaults.namespace is empty but it must be set".data) := by
  refine ⟨by decide, rfl, ?_, by decide⟩
  intro pc hmem hcontra
  have hname : pc.name = "policy-x" := by
    rcases List.mem_cons.mp hmem with h | h
    · rw [h]
      rfl
    · rcases List.mem_cons.mp h with h2 | h2
      · rw [h2]
        rfl
      · simp at h2
  rw [show assertValidConfig envFix pDupNoNs =
    .error "policyDefaults.namespace is empty but it must be set" from rfl,
    hname] at hcontra
  simp only [Except.error.injEq] at hcontra
  exact absurd hcontra (by decide)
